import Mathlib

/-!
Verification of the influxdb-cli-tools task-run commands (`src/influxdbcli.py`)
against their design specification.

The embedding models the script's two operations, `tasks_retry` and
`tasks_runs`, together with their helpers `_print_task_run` and
`_monitor_runs`.  Remote-service calls are modelled by oracles supplied in an
environment record, and observable behaviour (REST requests, printed lines,
sleeps) is recorded as a list of `Event`s.  Python `datetime` values are
modelled as integer epoch seconds; Python `None` is `Option.none`; a Python
`TypeError` / `ValueError` / uncaught `ApiException` is a `PyErr`.  The
deduplication dictionary of `tasks_retry` (a Python `dict` keyed by
`str(run.scheduled_for)`, insertion-ordered, `str` being injective on the
datetimes returned by one service) is modelled as an insertion-ordered
association list keyed by the scheduled-for value itself.
-/

namespace Influx

/-- A task run record as used by `influxdbcli.py`: identifier, owning task,
status string, scheduled-for timestamp, and optional started-at /
finished-at timestamps (absent when the run has not started / finished). -/
structure Run where
  id : Nat
  task_id : Nat
  status : String
  scheduled_for : Int
  started_at : Option Int
  finished_at : Option Int
  deriving DecidableEq

/-- Observable actions of the script: REST requests issued to the service,
lines printed, and sleeps. -/
inductive Event where
  | getRunsEv (task_id limit : Nat)
  | getRunEv (task_id run_id : Nat)
  | retryReq (task_id run_id : Nat)
  | printMsg (msg : String)
  | printRetrying (run_id : Nat)
  | printNewRun (run_id : Nat) (status : String)
  | printStatus (run_id : Nat) (status : String)
  | printNotStarted (run_id : Nat)
  | printApiError (code : Nat)
  | printSummary (task_id run_id : Nat) (status : String) (started : Option Int)
      (scheduled : Int) (finished : Option Int) (duration : Int)
  | printLog (run_id : Nat)
  | sleep (n : Nat)
  deriving DecidableEq

/-- Result of a `get_run` service call: either a run record or an
`ApiException` with an HTTP status code (404 is the not-found signal). -/
inductive FetchRes where
  | found (u : Run)
  | apiErr (code : Nat)
  deriving DecidableEq

/-- A Python exception escaping the modelled code: `TypeError` (e.g. from
`datetime > None` or `None - None`), `ValueError` (from `strptime`), or an
uncaught `ApiException`. -/
inductive PyErr where
  | typeError
  | valueError
  | apiExn (code : Nat)
  deriving DecidableEq

/-- Service oracles used by `tasks_retry`: the response to
`get_runs(task_id, limit=500)`, the new run returned by `retry_run` for a
given old run id, and the (per run id) response of `get_run` during the
monitoring phase. -/
structure RetryEnv where
  get_runs : List Run
  retry_run : Nat → Run
  fetch : Nat → FetchRes

/-- Parsed arguments of `tasks retry`. -/
structure RetryArgs where
  task_id : Nat
  all_failed : Bool

/-- Service oracles used by `tasks_runs`: the response to `get_runs` and the
(per run id) response of `get_run`. -/
structure RunsEnv where
  get_runs : List Run
  get_run : Nat → FetchRes

/-- Parsed arguments of `tasks runs`. -/
structure RunsArgs where
  task_id : Nat
  limit : Nat
  after : Option String
  run_id : Option Nat

/-- `argparse` defaults for `tasks runs` (`--limit` defaults to 100 in
`parseArguments`; `--after` and `--run-id` default to absent). -/
def mkRunsArgs (task_id : Nat) (limit : Option Nat) (after : Option String)
    (run_id : Option Nat) : RunsArgs :=
  { task_id := task_id, limit := limit.getD 100, after := after, run_id := run_id }

/-! ### Deduplication pass of `tasks_retry` (lines 17-25) -/

/-- `run_map[k] = v` on an insertion-ordered dictionary: update in place,
or append a fresh key at the end. -/
def setKey : List (Int × Run) → Int → Run → List (Int × Run)
  | [], k, v => [(k, v)]
  | (k', v') :: rest, k, v =>
    if k' = k then (k, v) :: rest else (k', v') :: setKey rest k v

/-- `run_map.get(k)` on the insertion-ordered dictionary. -/
def alistFind (m : List (Int × Run)) (k : Int) : Option Run :=
  (m.find? (fun p => p.1 == k)).map (fun p => p.2)

/-- One iteration of the dedup loop, for candidate `run`:
```
if not run_map.get(run_scheduled_for):
    run_map[run_scheduled_for] = run
else:
    if not run.started_at or run.started_at > run_map.get(run_scheduled_for).started_at:
        run_map[run_scheduled_for] = run
```
Note the source tests `not run.started_at` on the candidate; when the
candidate has a started-at but the stored best does not, `datetime > None`
raises `TypeError`, modelled as `none`. -/
def dedupStep (m : List (Int × Run)) (run : Run) : Option (List (Int × Run)) :=
  match alistFind m run.scheduled_for with
  | none => some (setKey m run.scheduled_for run)
  | some best =>
    match run.started_at with
    | none => some (setKey m run.scheduled_for run)
    | some c =>
      match best.started_at with
      | none => none
      | some b => if b < c then some (setKey m run.scheduled_for run) else some m

/-- The dedup loop `for run in runs: ...` over the fetched list. -/
def dedupGo : List (Int × Run) → List Run → Option (List (Int × Run))
  | m, [] => some m
  | m, run :: rest =>
    match dedupStep m run with
    | none => none
    | some m' => dedupGo m' rest

/-- The full dedup pass: fold the fetched runs into an initially empty
`run_map`.  `none` models the `TypeError` crash. -/
def buildRunMap (runs : List Run) : Option (List (Int × Run)) :=
  dedupGo [] runs

/-! ### Retry phase of `tasks_retry` (lines 26-32) -/

/-- `for run in run_map.values(): if run.status == "failed": ...` —
print, issue the retry request, record the new run, sleep 1. -/
def retryLoop (env : RetryEnv) (tid : Nat) : List Run → List Event × List Run
  | [] => ([], [])
  | run :: rest =>
    if run.status = "failed" then
      (Event.printRetrying run.id :: Event.retryReq tid run.id ::
        Event.printNewRun (env.retry_run run.id).id (env.retry_run run.id).status ::
        Event.sleep 1 :: (retryLoop env tid rest).1,
        env.retry_run run.id :: (retryLoop env tid rest).2)
    else retryLoop env tid rest

/-! ### `_monitor_runs` (lines 69-82) -/

/-- Whether a `get_run` response carries a terminal status
(`"success"` or `"failed"`). -/
def isTerminalFetch (fr : FetchRes) : Bool :=
  match fr with
  | .found u => decide (u.status = "success" ∨ u.status = "failed")
  | .apiErr _ => false

/-- One pass of `for run in runs:` inside `_monitor_runs`, faithful to
CPython list-iterator semantics: the iterator advances by index, and
`runs.remove(run)` shifts later elements down, so the element after a
removed one is skipped in this pass.  `time.sleep(2)` sits inside the loop
body, after the `try`/`except`.  `fuel` bounds the index walk; with
`fuel = runs.length - i` it never runs out before the natural loop exit. -/
def cycleGo (f : Nat → FetchRes) : Nat → List Run → Nat → List Run × List Event
  | 0, runs, _ => (runs, [])
  | fuel + 1, runs, i =>
    if h : i < runs.length then
      match f (runs.get ⟨i, h⟩).id with
      | .found u =>
        if u.status = "success" ∨ u.status = "failed" then
          ((cycleGo f fuel (runs.erase (runs.get ⟨i, h⟩)) (i + 1)).1,
            Event.getRunEv (runs.get ⟨i, h⟩).task_id (runs.get ⟨i, h⟩).id ::
            Event.printStatus u.id u.status :: Event.sleep 2 ::
            (cycleGo f fuel (runs.erase (runs.get ⟨i, h⟩)) (i + 1)).2)
        else
          ((cycleGo f fuel runs (i + 1)).1,
            Event.getRunEv (runs.get ⟨i, h⟩).task_id (runs.get ⟨i, h⟩).id ::
            Event.printStatus u.id u.status :: Event.sleep 2 ::
            (cycleGo f fuel runs (i + 1)).2)
      | .apiErr code =>
        ((cycleGo f fuel runs (i + 1)).1,
          Event.getRunEv (runs.get ⟨i, h⟩).task_id (runs.get ⟨i, h⟩).id ::
          (if code = 404 then Event.printNotStarted (runs.get ⟨i, h⟩).id
            else Event.printApiError code) :: Event.sleep 2 ::
          (cycleGo f fuel runs (i + 1)).2)
    else (runs, [])

/-- One full `for run in runs:` pass of `_monitor_runs`. -/
def monitorCycle (f : Nat → FetchRes) (runs : List Run) : List Run × List Event :=
  cycleGo f runs.length runs 0

/-- The `while len(runs) > 0:` loop of `_monitor_runs`, bounded by a cycle
budget `n` (the source loop is unbounded; every statement about it is
stated for all budgets or for a sufficient budget). -/
def monitorLoop (f : Nat → FetchRes) : Nat → List Run → List Run × List Event
  | 0, runs => (runs, [])
  | n + 1, runs =>
    if runs.isEmpty then (runs, [])
    else
      ((monitorLoop f n (monitorCycle f runs).1).1,
        (monitorCycle f runs).2 ++ (monitorLoop f n (monitorCycle f runs).1).2)

/-! ### `tasks_retry` (lines 13-38) -/

def noFailedMsg : String := "No failed runs detected in the last 500 runs."

def nothingMsg : String := "Nothing to do."

/-- The whole `tasks_retry` operation.  `fuel` bounds the monitoring loop;
`none` models the `TypeError` escaping from the dedup pass. -/
def tasks_retry (env : RetryEnv) (args : RetryArgs) (fuel : Nat) :
    Option (List Event) :=
  if args.all_failed then
    match buildRunMap env.get_runs with
    | none => none
    | some m =>
      if (retryLoop env args.task_id (m.map Prod.snd)).2.length = 0 then
        some (Event.getRunsEv args.task_id 500 ::
          (retryLoop env args.task_id (m.map Prod.snd)).1 ++ [Event.printMsg noFailedMsg])
      else
        some (Event.getRunsEv args.task_id 500 ::
          (retryLoop env args.task_id (m.map Prod.snd)).1 ++
          (monitorLoop env.fetch fuel (retryLoop env args.task_id (m.map Prod.snd)).2).2)
  else some [Event.printMsg nothingMsg]

/-! ### Timestamp parsing (`datetime.strptime(after, '%Y-%m-%dT%H:%M:%SZ')`,
localized to UTC) -/

def digitVal (c : Char) : Option Nat :=
  if c.isDigit then some (c.toNat - 48) else none

def num2 (a b : Char) : Option Nat := do
  pure ((← digitVal a) * 10 + (← digitVal b))

def num4 (a b c d : Char) : Option Nat := do
  pure ((← digitVal a) * 1000 + (← digitVal b) * 100 + (← digitVal c) * 10 + (← digitVal d))

def isLeap (y : Nat) : Bool :=
  decide ((y % 4 = 0 ∧ y % 100 ≠ 0) ∨ y % 400 = 0)

def daysInMonth (y m : Nat) : Nat :=
  if m = 2 then (if isLeap y then 29 else 28)
  else if m = 4 ∨ m = 6 ∨ m = 9 ∨ m = 11 then 30
  else 31

/-- Days from 1970-01-01 to year-month-day in the proleptic Gregorian
calendar (standard civil-from-days inversion; all divisions on
nonnegative numerators). -/
def daysFromCivil (y m d : Nat) : Int :=
  let y' := if m ≤ 2 then y - 1 else y
  let era := y' / 400
  let yoe := y' % 400
  let mp := (m + 9) % 12
  let doy := (153 * mp + 2) / 5 + d - 1
  let doe := yoe * 365 + yoe / 4 - yoe / 100 + doy
  ((era * 146097 + doe : Nat) : Int) - 719468

/-- Parse a `YYYY-MM-DDTHH:MM:SSZ` string to UTC epoch seconds; `none`
models the `ValueError` raised by `strptime` on malformed input. -/
def parseTimestamp (ts : String) : Option Int :=
  match ts.toList with
  | [y1, y2, y3, y4, c1, m1, m2, c2, d1, d2, c3, h1, h2, c4, n1, n2, c5, s1, s2, c6] =>
    if c1 = '-' ∧ c2 = '-' ∧ c3 = 'T' ∧ c4 = ':' ∧ c5 = ':' ∧ c6 = 'Z' then do
      let y ← num4 y1 y2 y3 y4
      let mo ← num2 m1 m2
      let da ← num2 d1 d2
      let ho ← num2 h1 h2
      let mi ← num2 n1 n2
      let se ← num2 s1 s2
      if 1 ≤ y ∧ 1 ≤ mo ∧ mo ≤ 12 ∧ 1 ≤ da ∧ da ≤ daysInMonth y mo ∧
          ho ≤ 23 ∧ mi ≤ 59 ∧ se ≤ 59 then
        pure (daysFromCivil y mo da * 86400 + (ho * 3600 + mi * 60 + se : Nat))
      else none
    else none
  | _ => none

/-! ### `_print_task_run` (lines 54-55) and the `tasks_runs` listing
(lines 40-52) -/

/-- The summary line.  The source formats
`(run.finished_at - run.started_at).seconds` with no `None` handling:
if either timestamp is absent the subtraction raises `TypeError`;
otherwise Python's `timedelta.seconds` is the nonnegative seconds
component of the difference, i.e. the difference modulo 86400. -/
def _print_task_run (run : Run) : Except PyErr Event :=
  match run.finished_at, run.started_at with
  | some f, some s =>
    .ok (Event.printSummary run.task_id run.id run.status run.started_at
      run.scheduled_for run.finished_at ((f - s) % 86400))
  | _, _ => .error .typeError

/-- The filter condition of the listing loop:
`(args.after and run.scheduled_for >= utc.localize(strptime(args.after, ...))) or (not args.after)`.
A falsy (absent or empty) `after` short-circuits to printing; a truthy one
is parsed on every iteration (`ValueError` on malformed input) and
compared in UTC. -/
def afterCond (after : Option String) (run : Run) : Except PyErr Bool :=
  match after with
  | none => .ok true
  | some a =>
    if a = "" then .ok true
    else
      match parseTimestamp a with
      | none => .error .valueError
      | some t => .ok (decide (t ≤ run.scheduled_for))

/-- The `for run in runs:` loop of the listing mode: events printed so far
and the first escaping exception, if any. -/
def runsLoop (after : Option String) : List Run → List Event × Option PyErr
  | [] => ([], none)
  | run :: rest =>
    match afterCond after run with
    | .error e => ([], some e)
    | .ok false => runsLoop after rest
    | .ok true =>
      match _print_task_run run with
      | .error e => ([], some e)
      | .ok ev => (ev :: (runsLoop after rest).1, (runsLoop after rest).2)

/-- The whole `tasks_runs` operation: events emitted before any escaping
exception, and that exception if one escapes (the source has no local
handler, so any `ApiException` from the specific-run lookup and any
`TypeError`/`ValueError` from the loop propagates out of `tasks_runs`).
The log rendering of `_print_task_log` is abstracted as a single
`printLog` event. -/
def tasks_runs (env : RunsEnv) (args : RunsArgs) : List Event × Option PyErr :=
  match args.run_id with
  | some rid =>
    match env.get_run rid with
    | .apiErr c => ([Event.getRunEv args.task_id rid], some (.apiExn c))
    | .found run =>
      match _print_task_run run with
      | .error e => ([Event.getRunEv args.task_id rid], some e)
      | .ok line =>
        ([Event.getRunEv args.task_id rid, line, Event.printLog run.id], none)
  | none =>
    (Event.getRunsEv args.task_id args.limit :: (runsLoop args.after env.get_runs).1,
      (runsLoop args.after env.get_runs).2)

/-! ### Helper lemmas: the insertion-ordered dictionary -/

theorem alistFind_cons (k' : Int) (v' : Run) (rest : List (Int × Run)) (k : Int) :
    alistFind ((k', v') :: rest) k = if k' = k then some v' else alistFind rest k := by
  by_cases h : k' = k
  · simp [alistFind, List.find?_cons, h]
  · simp [alistFind, List.find?_cons, h]

theorem find_setKey_self (m : List (Int × Run)) (k : Int) (v : Run) :
    alistFind (setKey m k v) k = some v := by
  induction m with
  | nil => simp [setKey, alistFind_cons]
  | cons p rest ih =>
    obtain ⟨k', v'⟩ := p
    by_cases h : k' = k
    · simp [setKey, h, alistFind_cons]
    · simp [setKey, h, alistFind_cons, ih]

theorem find_setKey_other (m : List (Int × Run)) (k : Int) (v : Run) (k₀ : Int)
    (hne : k₀ ≠ k) : alistFind (setKey m k v) k₀ = alistFind m k₀ := by
  induction m with
  | nil => simp [setKey, alistFind_cons, Ne.symm hne]
  | cons p rest ih =>
    obtain ⟨k', v'⟩ := p
    by_cases h : k' = k
    · subst h
      simp [setKey, alistFind_cons, Ne.symm hne]
    · simp [setKey, h, alistFind_cons, ih]

/-! ### Specification-side characterisation of the dedup pass -/

/-- The started-at value of a run, for runs known to have one. -/
def sv (r : Run) : Int := r.started_at.getD 0

/-- Every run in the list has a started-at value. -/
def allStarted (l : List Run) : Prop := ∀ r ∈ l, r.started_at.isSome = true

/-- Within a scheduled-for slot, started-at values identify the run. -/
def slotDistinct (l : List Run) : Prop :=
  ∀ r ∈ l, ∀ r' ∈ l, r.scheduled_for = r'.scheduled_for → r.started_at = r'.started_at → r = r'

/-- `r` is the strictly-latest-started run of slot `k` in `l`. -/
def isBestAt (l : List Run) (k : Int) (r : Run) : Prop :=
  r ∈ l ∧ r.scheduled_for = k ∧
    ∀ r' ∈ l, r'.scheduled_for = k → r' ≠ r → sv r' < sv r

theorem dedupGo_append (m : List (Int × Run)) (l : List Run) (r : Run) :
    dedupGo m (l ++ [r]) = (dedupGo m l).bind (fun m' => dedupStep m' r) := by
  induction l generalizing m with
  | nil =>
    simp only [List.nil_append, dedupGo]
    cases h : dedupStep m r <;> simp [dedupGo, h]
  | cons x xs ih =>
    simp only [List.cons_append, dedupGo]
    cases h : dedupStep m x <;> simp [ih, h]

/-- Under `allStarted` and `slotDistinct`, the dedup pass succeeds and its
dictionary maps every key to the strictly-latest-started run of that slot
(and has no key for empty slots). -/
theorem buildRunMap_char : ∀ l : List Run, allStarted l → slotDistinct l →
    ∃ m, buildRunMap l = some m ∧
      (∀ k r, alistFind m k = some r → isBestAt l k r) ∧
      (∀ k, alistFind m k = none → ∀ r ∈ l, r.scheduled_for ≠ k) := by
  intro l
  induction l using List.reverseRecOn with
  | nil =>
    intro _ _
    refine ⟨[], rfl, fun k r h => by simp [alistFind] at h, fun k _ r hr => ?_⟩
    exact absurd hr (List.not_mem_nil r)
  | append_singleton l r ih =>
    intro hs hd
    have hs' : allStarted l := fun x hx => hs x (List.mem_append_left _ hx)
    have hd' : slotDistinct l := fun x hx y hy hxy hst =>
      hd x (List.mem_append_left _ hx) y (List.mem_append_left _ hy) hxy hst
    obtain ⟨m, hm, hsome, hnone⟩ := ih hs' hd'
    have hrmem : r ∈ l ++ [r] := List.mem_append_right _ (List.mem_singleton_self r)
    have hb : buildRunMap (l ++ [r]) = dedupStep m r := by
      unfold buildRunMap at hm ⊢
      rw [dedupGo_append, hm]
      rfl
    obtain ⟨c, hc⟩ := Option.isSome_iff_exists.mp (hs r hrmem)
    cases hfind : alistFind m r.scheduled_for with
    | none =>
      refine ⟨setKey m r.scheduled_for r, ?_, ?_, ?_⟩
      · rw [hb]; simp [dedupStep, hfind]
      · intro k x hx
        by_cases hk : k = r.scheduled_for
        · subst hk
          rw [find_setKey_self] at hx
          injection hx with hxr
          subst hxr
          refine ⟨hrmem, rfl, ?_⟩
          intro r' hr' hsched hne
          rcases List.mem_append.mp hr' with h | h
          · exact absurd hsched (hnone _ hfind r' h)
          · rcases List.mem_singleton.mp h with rfl
            exact absurd rfl hne
        · rw [find_setKey_other _ _ _ _ hk] at hx
          obtain ⟨hmem, hsched, hbest⟩ := hsome k x hx
          refine ⟨List.mem_append_left _ hmem, hsched, ?_⟩
          intro r' hr' hsched' hne
          rcases List.mem_append.mp hr' with h | h
          · exact hbest r' h hsched' hne
          · rcases List.mem_singleton.mp h with rfl
            exact absurd hsched'.symm hk
      · intro k hk x hx
        by_cases hkk : k = r.scheduled_for
        · subst hkk; rw [find_setKey_self] at hk; cases hk
        · rw [find_setKey_other _ _ _ _ hkk] at hk
          rcases List.mem_append.mp hx with h | h
          · exact hnone k hk x h
          · rcases List.mem_singleton.mp h with rfl
            exact fun hcon => hkk hcon.symm
    | some best =>
      obtain ⟨hbmem, hbsched, hbbest⟩ := hsome _ _ hfind
      obtain ⟨b, hbb⟩ := Option.isSome_iff_exists.mp (hs' best hbmem)
      by_cases hlt : b < c
      · refine ⟨setKey m r.scheduled_for r, ?_, ?_, ?_⟩
        · rw [hb]; simp [dedupStep, hfind, hc, hbb, hlt]
        · intro k x hx
          by_cases hk : k = r.scheduled_for
          · subst hk
            rw [find_setKey_self] at hx
            injection hx with hxr
            subst hxr
            refine ⟨hrmem, rfl, ?_⟩
            intro r' hr' hsched hne
            rcases List.mem_append.mp hr' with h | h
            · by_cases hrb : r' = best
              · subst hrb
                simp only [sv, hbb, hc, Option.getD_some]
                exact hlt
              · have h1 := hbbest r' h hsched hrb
                have h2 : sv best < sv r := by
                  simp only [sv, hbb, hc, Option.getD_some]
                  exact hlt
                exact lt_trans h1 h2
            · rcases List.mem_singleton.mp h with rfl
              exact absurd rfl hne
          · rw [find_setKey_other _ _ _ _ hk] at hx
            obtain ⟨hmem, hsched, hbest2⟩ := hsome k x hx
            refine ⟨List.mem_append_left _ hmem, hsched, ?_⟩
            intro r' hr' hsched' hne
            rcases List.mem_append.mp hr' with h | h
            · exact hbest2 r' h hsched' hne
            · rcases List.mem_singleton.mp h with rfl
              exact absurd hsched'.symm hk
        · intro k hk x hx
          by_cases hkk : k = r.scheduled_for
          · subst hkk; rw [find_setKey_self] at hk; cases hk
          · rw [find_setKey_other _ _ _ _ hkk] at hk
            rcases List.mem_append.mp hx with h | h
            · exact hnone k hk x h
            · rcases List.mem_singleton.mp h with rfl
              exact fun hcon => hkk hcon.symm
      · refine ⟨m, ?_, ?_, ?_⟩
        · rw [hb]; simp [dedupStep, hfind, hc, hbb, hlt]
        · intro k x hx
          obtain ⟨hmem, hsched, hbest2⟩ := hsome k x hx
          refine ⟨List.mem_append_left _ hmem, hsched, ?_⟩
          intro r' hr' hsched' hne
          rcases List.mem_append.mp hr' with h | h
          · exact hbest2 r' h hsched' hne
          · obtain rfl := (List.mem_singleton.mp h).symm
            have hkk : r.scheduled_for = k := hsched'
            have hxbest : x = best := by
              have hfk : alistFind m k = some best := by rw [← hkk]; exact hfind
              rw [hx] at hfk
              exact Option.some.inj hfk
            rw [hxbest]
            have hcb : c ≤ b := le_of_not_lt hlt
            rcases lt_or_eq_of_le hcb with h' | h'
            · simp only [sv, hbb, hc, Option.getD_some]
              exact h'
            · exfalso
              apply hne
              rw [hxbest]
              exact hd r hrmem best (List.mem_append_left _ hbmem)
                (by rw [hbsched]) (by rw [hc, hbb, h'])
        · intro k hk x hx
          rcases List.mem_append.mp hx with h | h
          · exact hnone k hk x h
          · rcases List.mem_singleton.mp h with rfl
            intro hcon
            rw [hcon] at hfind
            rw [hfind] at hk
            cases hk

theorem isBestAt_unique (l : List Run) (k : Int) (r r' : Run)
    (h1 : isBestAt l k r) (h2 : isBestAt l k r') : r = r' := by
  by_contra hne
  have ha := h1.2.2 r' h2.1 h2.2.1 (fun h => hne h.symm)
  have hb := h2.2.2 r h1.1 h1.2.1 hne
  exact absurd ha (not_lt.mpr (le_of_lt hb))

/-! ### Helper lemmas: the monitoring loop -/

theorem cycleGo_sublist (f : Nat → FetchRes) :
    ∀ (fuel : Nat) (runs : List Run) (i : Nat), ((cycleGo f fuel runs i).1).Sublist runs := by
  intro fuel
  induction fuel with
  | zero => intro runs i; exact List.Sublist.refl runs
  | succ fuel ih =>
    intro runs i
    by_cases h : i < runs.length
    · cases hf : f (runs.get ⟨i, h⟩).id with
      | found u =>
        by_cases ht : u.status = "success" ∨ u.status = "failed"
        · simp only [cycleGo, dif_pos h, hf, if_pos ht]
          exact (ih _ _).trans (List.erase_sublist _ _)
        · simp only [cycleGo, dif_pos h, hf, if_neg ht]
          exact ih _ _
      | apiErr c =>
        simp only [cycleGo, dif_pos h, hf]
        exact ih _ _
    · simp only [cycleGo, dif_neg h]
      exact List.Sublist.refl runs

theorem cycleGo_mem (f : Nat → FetchRes) :
    ∀ (fuel : Nat) (runs : List Run) (i : Nat) (r : Run), r ∈ runs →
      isTerminalFetch (f r.id) = false → r ∈ (cycleGo f fuel runs i).1 := by
  intro fuel
  induction fuel with
  | zero => intro runs i r hr _; exact hr
  | succ fuel ih =>
    intro runs i r hr hter
    by_cases h : i < runs.length
    · cases hf : f (runs.get ⟨i, h⟩).id with
      | found u =>
        by_cases ht : u.status = "success" ∨ u.status = "failed"
        · simp only [cycleGo, dif_pos h, hf, if_pos ht]
          apply ih
          · have hne : r ≠ runs.get ⟨i, h⟩ := by
              intro heq
              rw [heq, hf] at hter
              simp only [isTerminalFetch, decide_eq_false_iff_not] at hter
              exact hter ht
            exact (List.mem_erase_of_ne hne).mpr hr
          · exact hter
        · simp only [cycleGo, dif_pos h, hf, if_neg ht]
          exact ih _ _ _ hr hter
      | apiErr c =>
        simp only [cycleGo, dif_pos h, hf]
        exact ih _ _ _ hr hter
    · simp only [cycleGo, dif_neg h]
      exact hr

theorem cycleGo_term_progress (f : Nat → FetchRes) (fuel : Nat) (runs : List Run) (i : Nat)
    (h : i < runs.length) (ht : isTerminalFetch (f (runs.get ⟨i, h⟩).id) = true) :
    ((cycleGo f (fuel + 1) runs i).1).length < runs.length := by
  cases hf : f (runs.get ⟨i, h⟩).id with
  | apiErr c =>
    rw [hf] at ht
    simp [isTerminalFetch] at ht
  | found u =>
    rw [hf] at ht
    simp only [isTerminalFetch, decide_eq_true_eq] at ht
    simp only [cycleGo, dif_pos h, hf, if_pos ht]
    have hmem : runs.get ⟨i, h⟩ ∈ runs := List.get_mem runs i h
    have hle := (cycleGo_sublist f fuel (runs.erase (runs.get ⟨i, h⟩)) (i + 1)).length_le
    have herase := List.length_erase_of_mem hmem
    omega

theorem monitorCycle_progress (f : Nat → FetchRes) (runs : List Run) (hne : runs ≠ [])
    (hall : ∀ r ∈ runs, isTerminalFetch (f r.id) = true) :
    ((monitorCycle f runs).1).length < runs.length := by
  cases runs with
  | nil => exact absurd rfl hne
  | cons x xs =>
    have h0 : 0 < (x :: xs).length := by simp
    exact cycleGo_term_progress f xs.length (x :: xs) 0 h0
      (hall _ (List.get_mem (x :: xs) 0 h0))

theorem monitorLoop_terminates (f : Nat → FetchRes) :
    ∀ (n : Nat) (runs : List Run), (∀ r ∈ runs, isTerminalFetch (f r.id) = true) →
      runs.length ≤ n → (monitorLoop f n runs).1 = [] := by
  intro n
  induction n with
  | zero =>
    intro runs _ hlen
    have : runs = [] := List.eq_nil_of_length_eq_zero (Nat.le_zero.mp hlen)
    subst this
    rfl
  | succ n ih =>
    intro runs hall hlen
    by_cases he : runs.isEmpty
    · cases runs with
      | nil => rfl
      | cons x xs => simp [List.isEmpty] at he
    · have hne : runs ≠ [] := by
        intro hcon
        subst hcon
        simp [List.isEmpty] at he
      simp only [monitorLoop, if_neg he]
      apply ih
      · intro r hr
        exact hall r ((cycleGo_sublist f _ _ _).subset hr)
      · have := monitorCycle_progress f runs hne hall
        omega

theorem monitorLoop_mem (f : Nat → FetchRes) :
    ∀ (n : Nat) (runs : List Run) (r : Run), r ∈ runs →
      isTerminalFetch (f r.id) = false → r ∈ (monitorLoop f n runs).1 := by
  intro n
  induction n with
  | zero => intro runs r hr _; exact hr
  | succ n ih =>
    intro runs r hr hter
    by_cases he : runs.isEmpty
    · simp only [monitorLoop, if_pos he]
      exact hr
    · simp only [monitorLoop, if_neg he]
      exact ih _ _ (cycleGo_mem f _ _ _ _ hr hter) hter

/-! ### Helper lemmas: event counting and event shapes -/

/-- Whether an event is a `time.sleep` call. -/
def isSleepEv : Event → Bool
  | .sleep _ => true
  | _ => false

/-- Whether an event is a `get_run` fetch attempt. -/
def isFetchEv : Event → Bool
  | .getRunEv _ _ => true
  | _ => false

theorem cycleGo_sleep_eq_fetch (f : Nat → FetchRes) :
    ∀ (fuel : Nat) (runs : List Run) (i : Nat),
      ((cycleGo f fuel runs i).2.filter isSleepEv).length =
        ((cycleGo f fuel runs i).2.filter isFetchEv).length := by
  intro fuel
  induction fuel with
  | zero => intro runs i; rfl
  | succ fuel ih =>
    intro runs i
    by_cases h : i < runs.length
    · cases hf : f (runs.get ⟨i, h⟩).id with
      | found u =>
        by_cases ht : u.status = "success" ∨ u.status = "failed"
        · simp only [cycleGo, dif_pos h, hf, if_pos ht]
          simp [isSleepEv, isFetchEv, List.filter_cons, ih]
        · simp only [cycleGo, dif_pos h, hf, if_neg ht]
          simp [isSleepEv, isFetchEv, List.filter_cons, ih]
      | apiErr c =>
        simp only [cycleGo, dif_pos h, hf]
        by_cases hc : c = 404
        · simp [hc, isSleepEv, isFetchEv, List.filter_cons, ih]
        · simp [hc, isSleepEv, isFetchEv, List.filter_cons, ih]
    · simp only [cycleGo, dif_neg h]
      rfl

theorem cycleGo_sleep_count (f : Nat → FetchRes) (runs : List Run)
    (hall : ∀ r ∈ runs, isTerminalFetch (f r.id) = false) :
    ∀ (fuel i : Nat), runs.length - i ≤ fuel →
      ((cycleGo f fuel runs i).2.filter isSleepEv).length = runs.length - i := by
  intro fuel
  induction fuel with
  | zero =>
    intro i hle
    have h0 : runs.length - i = 0 := by omega
    simp [cycleGo, h0]
  | succ fuel ih =>
    intro i hle
    by_cases h : i < runs.length
    · have hter := hall _ (List.get_mem runs i h)
      cases hf : f (runs.get ⟨i, h⟩).id with
      | found u =>
        rw [hf] at hter
        have ht : ¬(u.status = "success" ∨ u.status = "failed") := by
          simpa [isTerminalFetch] using hter
        simp only [cycleGo, dif_pos h, hf, if_neg ht]
        have hrec := ih (i + 1) (by omega)
        simp only [List.filter_cons, isSleepEv]
        simp [hrec]
        omega
      | apiErr c =>
        simp only [cycleGo, dif_pos h, hf]
        have hrec := ih (i + 1) (by omega)
        by_cases hc : c = 404
        · simp only [hc, if_pos rfl, List.filter_cons, isSleepEv]
          simp [hrec]
          omega
        · simp only [if_neg hc, List.filter_cons, isSleepEv]
          simp [hrec]
          omega
    · simp only [cycleGo, dif_neg h]
      have h0 : runs.length - i = 0 := by omega
      simp [h0]

theorem cycleGo_no_retryReq (f : Nat → FetchRes) :
    ∀ (fuel : Nat) (runs : List Run) (i : Nat) (t j : Nat),
      Event.retryReq t j ∉ (cycleGo f fuel runs i).2 := by
  intro fuel
  induction fuel with
  | zero => intro runs i t j; simp [cycleGo]
  | succ fuel ih =>
    intro runs i t j
    by_cases h : i < runs.length
    · cases hf : f (runs.get ⟨i, h⟩).id with
      | found u =>
        by_cases ht : u.status = "success" ∨ u.status = "failed"
        · simp only [cycleGo, dif_pos h, hf, if_pos ht]
          simp [ih]
        · simp only [cycleGo, dif_pos h, hf, if_neg ht]
          simp [ih]
      | apiErr c =>
        simp only [cycleGo, dif_pos h, hf]
        by_cases hc : c = 404 <;> simp [hc, ih]
    · simp [cycleGo, dif_neg h]

theorem monitorLoop_no_retryReq (f : Nat → FetchRes) :
    ∀ (n : Nat) (runs : List Run) (t j : Nat),
      Event.retryReq t j ∉ (monitorLoop f n runs).2 := by
  intro n
  induction n with
  | zero => intro runs t j; simp [monitorLoop]
  | succ n ih =>
    intro runs t j
    by_cases he : runs.isEmpty
    · cases runs with
      | nil => simp [monitorLoop]
      | cons x xs => simp [List.isEmpty] at he
    · simp only [monitorLoop, if_neg he]
      intro hmem
      rcases List.mem_append.mp hmem with hm | hm
      · exact cycleGo_no_retryReq f _ _ _ t j hm
      · exact ih _ t j hm

/-! ### Helper lemmas: the retry phase -/

theorem retryLoop_retryReq_mem (env : RetryEnv) (tid : Nat) :
    ∀ (vals : List Run) (i : Nat),
      Event.retryReq tid i ∈ (retryLoop env tid vals).1 ↔
        ∃ r ∈ vals, r.status = "failed" ∧ r.id = i := by
  intro vals
  induction vals with
  | nil => intro i; simp [retryLoop]
  | cons run rest ih =>
    intro i
    by_cases hst : run.status = "failed"
    · simp only [retryLoop, if_pos hst]
      constructor
      · intro hmem
        rcases List.mem_cons.mp hmem with h | h
        · cases h
        rcases List.mem_cons.mp h with h2 | h2
        · refine ⟨run, List.mem_cons_self run rest, hst, ?_⟩
          cases h2
          rfl
        rcases List.mem_cons.mp h2 with h3 | h3
        · cases h3
        rcases List.mem_cons.mp h3 with h4 | h4
        · cases h4
        · obtain ⟨r, hr, hs, hid⟩ := (ih i).mp h4
          exact ⟨r, List.mem_cons_of_mem _ hr, hs, hid⟩
      · rintro ⟨r, hr, hs, hid⟩
        rcases List.mem_cons.mp hr with h | h
        · subst h
          subst hid
          exact List.mem_cons_of_mem _ (List.mem_cons_self _ _)
        · have := (ih i).mpr ⟨r, h, hs, hid⟩
          exact List.mem_cons_of_mem _ (List.mem_cons_of_mem _
            (List.mem_cons_of_mem _ (List.mem_cons_of_mem _ this)))
    · simp only [retryLoop, if_neg hst]
      rw [ih i]
      constructor
      · rintro ⟨r, hr, hs, hid⟩
        exact ⟨r, List.mem_cons_of_mem _ hr, hs, hid⟩
      · rintro ⟨r, hr, hs, hid⟩
        rcases List.mem_cons.mp hr with h | h
        · subst h
          exact absurd hs hst
        · exact ⟨r, h, hs, hid⟩

theorem retryLoop_none_failed (env : RetryEnv) (tid : Nat) :
    ∀ (vals : List Run), (∀ r ∈ vals, r.status ≠ "failed") →
      retryLoop env tid vals = ([], []) := by
  intro vals
  induction vals with
  | nil => intro _; rfl
  | cons run rest ih =>
    intro hnf
    have hst : ¬(run.status = "failed") := hnf run (List.mem_cons_self _ _)
    simp only [retryLoop, if_neg hst]
    exact ih (fun r hr => hnf r (List.mem_cons_of_mem _ hr))

theorem isBestAt_perm (l1 l2 : List Run) (hp : l1.Perm l2) (k : Int) (r : Run) :
    isBestAt l1 k r ↔ isBestAt l2 k r := by
  unfold isBestAt
  constructor
  · rintro ⟨h1, h2, h3⟩
    exact ⟨hp.mem_iff.mp h1, h2, fun r' hr' => h3 r' (hp.mem_iff.mpr hr')⟩
  · rintro ⟨h1, h2, h3⟩
    exact ⟨hp.mem_iff.mpr h1, h2, fun r' hr' => h3 r' (hp.mem_iff.mp hr')⟩

/-! ### Helper lemma: the `after` filter of the listing loop -/

theorem runsLoop_filter (a : String) (t : Int) (hne : a ≠ "") (hp : parseTimestamp a = some t) :
    ∀ runs : List Run,
      runsLoop (some a) runs =
        runsLoop none (runs.filter fun r => decide (t ≤ r.scheduled_for)) := by
  intro runs
  induction runs with
  | nil => rfl
  | cons r rest ih =>
    by_cases hc : t ≤ r.scheduled_for
    · have h1 : afterCond (some a) r = .ok true := by
        simp [afterCond, hne, hp, hc]
      have h3 : (r :: rest).filter (fun r => decide (t ≤ r.scheduled_for)) =
          r :: rest.filter (fun r => decide (t ≤ r.scheduled_for)) := by
        simp [List.filter_cons, hc]
      rw [h3]
      simp only [runsLoop, h1]
      have h2 : afterCond none r = .ok true := rfl
      simp only [h2]
      cases hpr : _print_task_run r with
      | error e => rfl
      | ok ev => simp [ih]
    · have h1 : afterCond (some a) r = .ok false := by
        simp [afterCond, hne, hp, hc]
      have h3 : (r :: rest).filter (fun r => decide (t ≤ r.scheduled_for)) =
          rest.filter (fun r => decide (t ≤ r.scheduled_for)) := by
        simp [List.filter_cons, hc]
      rw [h3]
      simp only [runsLoop, h1]
      exact ih

/-! ### Concrete sample data used by witnesses and counterexamples -/

def rUnstarted : Run :=
  { id := 1, task_id := 9, status := "failed", scheduled_for := 0,
    started_at := none, finished_at := none }

def rStarted : Run :=
  { id := 2, task_id := 9, status := "success", scheduled_for := 0,
    started_at := some 5, finished_at := some 9 }

def rS1 : Run :=
  { id := 11, task_id := 9, status := "failed", scheduled_for := 50,
    started_at := some 10, finished_at := some 20 }

def rS2 : Run :=
  { id := 12, task_id := 9, status := "failed", scheduled_for := 50,
    started_at := some 30, finished_at := some 40 }

def rRunning : Run :=
  { id := 3, task_id := 9, status := "running", scheduled_for := 1,
    started_at := some 1, finished_at := none }

def fTerm : Nat → FetchRes := fun _ => .found rStarted

def fRunning : Nat → FetchRes := fun _ => .found rRunning

def fErr : Nat → FetchRes := fun _ => .apiErr 503

def rFailedStarted : Run :=
  { id := 21, task_id := 7, status := "failed", scheduled_for := 100,
    started_at := some 4, finished_at := some 6 }

def rNew : Run :=
  { id := 22, task_id := 7, status := "scheduled", scheduled_for := 100,
    started_at := none, finished_at := none }

def envC2 : RetryEnv :=
  { get_runs := [rFailedStarted], retry_run := fun _ => rNew, fetch := fun _ => .apiErr 404 }

def argsC2 : RetryArgs := { task_id := 7, all_failed := true }

def envC7 : RetryEnv :=
  { get_runs := [rStarted], retry_run := fun _ => rStarted, fetch := fun _ => .apiErr 404 }

def argsC7 : RetryArgs := { task_id := 9, all_failed := true }

def rNoStart : Run :=
  { id := 4, task_id := 7, status := "failed", scheduled_for := 100,
    started_at := none, finished_at := some 200 }

def rLong : Run :=
  { id := 5, task_id := 7, status := "success", scheduled_for := 0,
    started_at := some 0, finished_at := some 90000 }

def rOk : Run :=
  { id := 6, task_id := 7, status := "success", scheduled_for := 10,
    started_at := some 50, finished_at := some 200 }

def afterStr : String := "2020-10-04T03:00:00Z"

def r259 : Run :=
  { id := 1, task_id := 3, status := "success", scheduled_for := 1601780399,
    started_at := some 1601780350, finished_at := some 1601780380 }

def r300 : Run :=
  { id := 2, task_id := 3, status := "success", scheduled_for := 1601780400,
    started_at := some 1601780420, finished_at := some 1601780450 }

def envC5 : RunsEnv := { get_runs := [r259, r300], get_run := fun _ => .apiErr 404 }

def argsC5 : RunsArgs := mkRunsArgs 3 none (some afterStr) none

def envC6 : RunsEnv := { get_runs := [], get_run := fun _ => .apiErr 404 }

def argsC6 : RunsArgs := mkRunsArgs 7 none none (some 42)

def envC6b : RunsEnv := { get_runs := [], get_run := fun _ => .apiErr 500 }

def argsC6b : RunsArgs := mkRunsArgs 8 none none (some 43)

/-! ### Claim theorems -/

/-- Claim C1 (code bug): the dedup rule of `tasks_retry` is claimed to keep
the latest-started run per slot and never to select an unstarted run over a
started one.  The code tests `not run.started_at` on the candidate instead
of the stored best, so on the spec's own example pair the pass crashes with
`TypeError` (`datetime > None`) when the unstarted run is seen first, and
selects the unstarted run when it is seen second. -/
theorem dedup_unstarted_bug :
    buildRunMap [rUnstarted, rStarted] = none ∧
    buildRunMap [rStarted, rUnstarted] = some [(0, rUnstarted)] :=
  ⟨rfl, rfl⟩

/-- Claim C8 (counterexample): two permutations of the same run list on
which the dedup pass yields different results (one crashes with
`TypeError`, the other selects the unstarted run), refuting
order-independence as claimed. -/
theorem dedup_order_dependent_counterexample :
    buildRunMap [rStarted, rUnstarted] ≠ buildRunMap [rUnstarted, rStarted] := by
  decide

/-- Claim C8 (amended): the dedup pass is order-independent on lists in
which every run has a started-at value and runs sharing a scheduled-for
slot have pairwise distinct started-at values: every permutation succeeds
and produces the same scheduled-for ↦ representative mapping. -/
theorem dedup_order_independent_amended (l1 l2 : List Run) (hp : l1.Perm l2)
    (hs : allStarted l1) (hd : slotDistinct l1) :
    ∃ m1 m2, buildRunMap l1 = some m1 ∧ buildRunMap l2 = some m2 ∧
      ∀ k, alistFind m1 k = alistFind m2 k := by
  have hs2 : allStarted l2 := fun r hr => hs r (hp.mem_iff.mpr hr)
  have hd2 : slotDistinct l2 := fun x hx y hy =>
    hd x (hp.mem_iff.mpr hx) y (hp.mem_iff.mpr hy)
  obtain ⟨m1, hm1, hsome1, hnone1⟩ := buildRunMap_char l1 hs hd
  obtain ⟨m2, hm2, hsome2, hnone2⟩ := buildRunMap_char l2 hs2 hd2
  refine ⟨m1, m2, hm1, hm2, ?_⟩
  intro k
  cases h1 : alistFind m1 k with
  | none =>
    cases h2 : alistFind m2 k with
    | none => rfl
    | some x =>
      have hx := hsome2 k x h2
      exact absurd hx.2.1 (hnone1 k h1 x (hp.mem_iff.mpr hx.1))
  | some x =>
    have hx := hsome1 k x h1
    cases h2 : alistFind m2 k with
    | none =>
      exact absurd hx.2.1 (hnone2 k h2 x (hp.mem_iff.mp hx.1))
    | some y =>
      have hy := hsome2 k y h2
      have hxy : x = y :=
        isBestAt_unique l2 k x y ((isBestAt_perm l1 l2 hp k x).mp hx) hy
      rw [hxy]

/-- Claim C8 (amended, witness): the amended order-independence theorem at a
concrete two-run slot with distinct started-at values. -/
theorem dedup_order_independent_amended_witness :
    ∃ m1 m2, buildRunMap [rS1, rS2] = some m1 ∧ buildRunMap [rS2, rS1] = some m2 ∧
      ∀ k, alistFind m1 k = alistFind m2 k :=
  dedup_order_independent_amended [rS1, rS2] [rS2, rS1] (by decide)
    (by unfold allStarted; decide) (by unfold slotDistinct; decide)

/-- Claim C3: with a fixed per-run fetch oracle, a run disappears from the
active set only when its fetch carries a terminal status; a non-terminal
fetch (including the 404 not-found signal) keeps it active across any
number of cycles; and the polling loop empties the active set (within
`runs.length` cycles) exactly when every active run's fetch is terminal. -/
theorem monitor_removal_and_termination (f : Nat → FetchRes) (runs : List Run) :
    (∀ (n : Nat) (r : Run), r ∈ runs → r ∉ (monitorLoop f n runs).1 →
      isTerminalFetch (f r.id) = true) ∧
    (∀ (n : Nat) (r : Run), r ∈ runs → isTerminalFetch (f r.id) = false →
      r ∈ (monitorLoop f n runs).1) ∧
    ((monitorLoop f runs.length runs).1 = [] ↔
      ∀ r ∈ runs, isTerminalFetch (f r.id) = true) := by
  refine ⟨?_, ?_, ?_, ?_⟩
  · intro n r hr hnm
    cases hb : isTerminalFetch (f r.id) with
    | true => rfl
    | false => exact absurd (monitorLoop_mem f n runs r hr hb) hnm
  · exact fun n r hr hter => monitorLoop_mem f n runs r hr hter
  · intro hemp r hr
    cases hb : isTerminalFetch (f r.id) with
    | true => rfl
    | false =>
      have hmem := monitorLoop_mem f runs.length runs r hr hb
      rw [hemp] at hmem
      exact absurd hmem (List.not_mem_nil r)
  · intro hall
    exact monitorLoop_terminates f runs.length runs hall le_rfl

/-- Claim C3 (witness): the polling loop at a concrete input with an
all-terminal oracle reaches the empty active set. -/
theorem monitor_removal_and_termination_witness :
    (monitorLoop fTerm 1 [rS1]).1 = [] :=
  (monitor_removal_and_termination fTerm [rS1]).2.2.mpr (by decide)

/-- Claim C9 (counterexample): with two active runs whose fetches return a
non-terminal status, one monitoring cycle contains two `sleep 2` events —
refuting "never more than one sleep per cycle". -/
theorem monitor_sleeps_per_run_counterexample :
    ((monitorCycle fRunning [rS1, rS2]).2.filter isSleepEv).length = 2 ∧
    ¬(((monitorCycle fRunning [rS1, rS2]).2.filter isSleepEv).length ≤ 1) := by
  decide

/-- Claim C9 (amended): `time.sleep(2)` sits inside the per-run loop of
`_monitor_runs`: every cycle contains exactly one sleep per fetch attempt,
and when no fetch is terminal a cycle over the active set sleeps once per
active run, not once per cycle. -/
theorem monitor_sleep_count_amended (f : Nat → FetchRes) (runs : List Run) :
    ((monitorCycle f runs).2.filter isSleepEv).length =
      ((monitorCycle f runs).2.filter isFetchEv).length ∧
    ((∀ r ∈ runs, isTerminalFetch (f r.id) = false) →
      ((monitorCycle f runs).2.filter isSleepEv).length = runs.length) := by
  constructor
  · exact cycleGo_sleep_eq_fetch f runs.length runs 0
  · intro hall
    have h := cycleGo_sleep_count f runs hall runs.length 0 (by omega)
    simpa using h

/-- Claim C9 (amended, witness): a concrete one-run cycle with a
non-terminal fetch sleeps exactly once. -/
theorem monitor_sleep_count_amended_witness :
    ((monitorCycle fRunning [rS1]).2.filter isSleepEv).length = 1 :=
  (monitor_sleep_count_amended fRunning [rS1]).2 (by decide)

/-- Claim C2: `tasks_retry` issues a retry request exactly for the
deduplicated runs whose status equals "failed": an event `retryReq` for run
id `i` occurs in the trace iff some run in the dedup map's values has
status "failed" and id `i`; deduplicated runs with any other status are
never retried. -/
theorem tasks_retry_retries_exactly_failed (env : RetryEnv) (args : RetryArgs)
    (fuel : Nat) (m : List (Int × Run)) (evs : List Event) (i : Nat)
    (haf : args.all_failed = true)
    (hm : buildRunMap env.get_runs = some m)
    (hok : tasks_retry env args fuel = some evs) :
    Event.retryReq args.task_id i ∈ evs ↔
      ∃ r ∈ m.map Prod.snd, r.status = "failed" ∧ r.id = i := by
  unfold tasks_retry at hok
  rw [if_pos haf] at hok
  simp only [hm] at hok
  by_cases hz : (retryLoop env args.task_id (m.map Prod.snd)).2.length = 0
  · rw [if_pos hz] at hok
    injection hok with hevs
    subst hevs
    constructor
    · intro hmem
      rcases List.mem_cons.mp hmem with h | h
      · simp at h
      rcases List.mem_append.mp h with h2 | h2
      · exact (retryLoop_retryReq_mem env args.task_id (m.map Prod.snd) i).mp h2
      · have h3 := List.mem_singleton.mp h2
        simp at h3
    · intro h
      have hmem := (retryLoop_retryReq_mem env args.task_id (m.map Prod.snd) i).mpr h
      exact List.mem_cons_of_mem _ (List.mem_append_left _ hmem)
  · rw [if_neg hz] at hok
    injection hok with hevs
    subst hevs
    constructor
    · intro hmem
      rcases List.mem_cons.mp hmem with h | h
      · simp at h
      rcases List.mem_append.mp h with h2 | h2
      · exact (retryLoop_retryReq_mem env args.task_id (m.map Prod.snd) i).mp h2
      · exact absurd h2 (monitorLoop_no_retryReq env.fetch fuel _ args.task_id i)
    · intro h
      have hmem := (retryLoop_retryReq_mem env args.task_id (m.map Prod.snd) i).mpr h
      exact List.mem_cons_of_mem _ (List.mem_append_left _ hmem)

/-- Claim C2 (witness): the retry-selection characterisation at a concrete
environment with a single failed run. -/
theorem tasks_retry_retries_exactly_failed_witness :
    Event.retryReq 7 21 ∈ [Event.getRunsEv 7 500, Event.printRetrying 21,
        Event.retryReq 7 21, Event.printNewRun 22 "scheduled", Event.sleep 1,
        Event.getRunEv 7 22, Event.printNotStarted 22, Event.sleep 2] ↔
      ∃ r ∈ [((100 : Int), rFailedStarted)].map Prod.snd,
        r.status = "failed" ∧ r.id = 21 :=
  tasks_retry_retries_exactly_failed envC2 argsC2 1 [((100 : Int), rFailedStarted)]
    [Event.getRunsEv 7 500, Event.printRetrying 21, Event.retryReq 7 21,
      Event.printNewRun 22 "scheduled", Event.sleep 1, Event.getRunEv 7 22,
      Event.printNotStarted 22, Event.sleep 2] 21 rfl rfl rfl

/-- Claim C7: if the deduplicated set contains no run with status "failed",
`tasks_retry` issues no retry request and performs no polling: its whole
trace is the `get_runs` request followed by the "no failed runs" report. -/
theorem tasks_retry_no_failed_no_poll (env : RetryEnv) (args : RetryArgs)
    (fuel : Nat) (m : List (Int × Run))
    (haf : args.all_failed = true)
    (hm : buildRunMap env.get_runs = some m)
    (hnf : ∀ r ∈ m.map Prod.snd, r.status ≠ "failed") :
    tasks_retry env args fuel =
      some [Event.getRunsEv args.task_id 500, Event.printMsg noFailedMsg] := by
  have hrl := retryLoop_none_failed env args.task_id (m.map Prod.snd) hnf
  unfold tasks_retry
  rw [if_pos haf]
  simp only [hm, hrl]
  rfl

/-- Claim C7 (witness): the no-failed-runs short cut at a concrete
environment whose only run succeeded. -/
theorem tasks_retry_no_failed_no_poll_witness :
    tasks_retry envC7 argsC7 3 =
      some [Event.getRunsEv 9 500, Event.printMsg noFailedMsg] :=
  tasks_retry_no_failed_no_poll envC7 argsC7 3 [((0 : Int), rStarted)] rfl rfl
    (by decide)

/-- Claim C4 (counterexample): a run with finished-at present and
started-at absent makes `_print_task_run` raise `TypeError` instead of
rendering a placeholder; and for a 90000-second run the printed duration is
3600 (`timedelta.seconds` wraps at one day), not the elapsed 90000. -/
theorem print_task_run_faults_on_missing_start :
    _print_task_run rNoStart = .error .typeError ∧
    _print_task_run rLong = .ok (Event.printSummary 7 5 "success" (some 0) 0
      (some 90000) 3600) ∧ (3600 : Int) ≠ 90000 :=
  ⟨rfl, rfl, by decide⟩

/-- Claim C4 (amended): when both timestamps are present the summary line
carries duration `(finished - started) mod 86400` seconds (Python's
`timedelta.seconds`); when either is absent `_print_task_run` raises
`TypeError` — no placeholder is rendered. -/
theorem print_task_run_duration_amended (run : Run) :
    (∀ f s : Int, run.finished_at = some f → run.started_at = some s →
      _print_task_run run = .ok (Event.printSummary run.task_id run.id run.status
        run.started_at run.scheduled_for run.finished_at ((f - s) % 86400))) ∧
    ((run.finished_at = none ∨ run.started_at = none) →
      _print_task_run run = .error .typeError) := by
  constructor
  · intro f s hf hs
    simp [_print_task_run, hf, hs]
  · intro h
    cases hf2 : run.finished_at with
    | none => simp [_print_task_run, hf2]
    | some f =>
      cases hs2 : run.started_at with
      | none => simp [_print_task_run, hf2, hs2]
      | some s =>
        rcases h with h | h
        · rw [hf2] at h
          simp at h
        · rw [hs2] at h
          simp at h

/-- Claim C4 (amended, witness): the summary line of a concrete run with
both timestamps present. -/
theorem print_task_run_duration_amended_witness :
    _print_task_run rOk = .ok (Event.printSummary 7 6 "success" (some 50) 10
      (some 200) 150) :=
  (print_task_run_duration_amended rOk).1 200 50 rfl rfl

/-- Claim C5: with an `after` threshold that parses (as
`YYYY-MM-DDTHH:MM:SSZ`, UTC) to `t`, run-listing mode (b) behaves exactly
like the unfiltered listing over the runs whose scheduled-for is at or
after `t`; in particular, with threshold 2020-10-04T03:00:00Z the run
scheduled at 02:59:59Z is excluded and the one at 03:00:00Z is included. -/
theorem tasks_runs_after_filter (env : RunsEnv) (args : RunsArgs) (a : String) (t : Int)
    (hrid : args.run_id = none) (ha : args.after = some a) (hne : a ≠ "")
    (hp : parseTimestamp a = some t) :
    tasks_runs env args =
      tasks_runs
        { env with get_runs := env.get_runs.filter fun r => decide (t ≤ r.scheduled_for) }
        { args with after := none } ∧
    tasks_runs envC5 argsC5 =
      ([Event.getRunsEv 3 100, Event.printSummary 3 2 "success" (some 1601780420)
        1601780400 (some 1601780450) 30], none) := by
  constructor
  · unfold tasks_runs
    simp only [hrid, ha]
    rw [runsLoop_filter a t hne hp]
  · rfl

/-- Claim C5 (witness): the threshold-filter theorem applied at the concrete
environment holding the two boundary runs. -/
theorem tasks_runs_after_filter_witness :
    tasks_runs envC5 argsC5 =
      ([Event.getRunsEv 3 100, Event.printSummary 3 2 "success" (some 1601780420)
        1601780400 (some 1601780450) 30], none) :=
  (tasks_runs_after_filter envC5 argsC5 afterStr 1601780400 rfl rfl (by decide) rfl).2

/-- Claim C6 (counterexample): a NotFound (`ApiException` 404) on the
specific-run lookup in `tasks_runs` is not handled locally: it escapes the
operation and aborts the invocation (only `NewConnectionError` is caught at
top level), refuting the claim that every failure other than
connection/config errors is printed and skipped. -/
theorem run_lookup_not_found_aborts :
    tasks_runs envC6 argsC6 = ([Event.getRunEv 7 42], some (PyErr.apiExn 404)) :=
  rfl

/-- Claim C6 (amended): inside the polling loop every `ApiException` fetch
failure is handled locally — the run stays in the active set and the loop
continues — but an `ApiException` (including NotFound) on the specific-run
lookup in `tasks_runs` propagates and aborts the invocation. -/
theorem error_handling_scope_amended (f : Nat → FetchRes) (n : Nat) (rs : List Run)
    (r : Run) (c : Nat) (env : RunsEnv) (args : RunsArgs) (rid : Nat) :
    (r ∈ rs → f r.id = .apiErr c → r ∈ (monitorLoop f n rs).1) ∧
    (args.run_id = some rid → env.get_run rid = .apiErr c →
      tasks_runs env args = ([Event.getRunEv args.task_id rid], some (.apiExn c))) := by
  constructor
  · intro hr hf
    apply monitorLoop_mem f n rs r hr
    rw [hf]
    rfl
  · intro h1 h2
    unfold tasks_runs
    simp only [h1, h2]

/-- Claim C6 (amended, witness): both halves of the amended error-handling
theorem at concrete inputs. -/
theorem error_handling_scope_amended_witness :
    rS1 ∈ (monitorLoop fErr 4 [rS1]).1 ∧
    tasks_runs envC6b argsC6b = ([Event.getRunEv 8 43], some (PyErr.apiExn 500)) :=
  ⟨(error_handling_scope_amended fErr 4 [rS1] rS1 503 envC6b argsC6b 43).1
      (by decide) rfl,
    (error_handling_scope_amended fErr 4 [rS1] rS1 500 envC6b argsC6b 43).2 rfl rfl⟩

/-- Claim C10: when `tasks runs` is invoked without `--run-id` and without
an explicit `--limit`, the parsed limit defaults to 100 and the operation's
first service request is `get_runs` with limit 100. -/
theorem runs_default_limit_100 (t : Nat) (env : RunsEnv) :
    (mkRunsArgs t none none none).limit = 100 ∧
    (tasks_runs env (mkRunsArgs t none none none)).1.head? =
      some (Event.getRunsEv t 100) :=
  ⟨rfl, rfl⟩

end Influx
